import Mathlib

/-!
Verification of the zone-label extraction pipeline (`extract_zones.py`).

The text-processing core of the program (`_clean_line`, the line loop of
`extract_zones`, the keyword filter, the crop-bound arithmetic and the
image-load error path) is shallowly embedded here over `List Char` /
`String`.  Each Python regex substitution is translated to an executable
scanner that mirrors the semantics of `re.sub` (leftmost match,
non-overlapping, greedy quantifiers, word boundaries over `[A-Za-z0-9_]`)
for the concrete patterns used by the source.  Fractional crop
coordinates (`int(w * 0.50)` etc.) are modelled as exact rational
multiplications followed by floor, i.e. `w * 50 / 100` over `Nat`; on
the dimensions relevant to the claims the float rounding of the source
agrees with the exact value.
-/

/-- ASCII whitespace as matched by Python's `\s` / `str.strip` (the
    source only ever sees OCR output; non-ASCII whitespace is not
    modelled). -/
def isPySpace (c : Char) : Bool :=
  c == ' ' || c == '\t' || c == '\n' || c == '\r' ||
  c == Char.ofNat 11 || c == Char.ofNat 12

/-- Word characters for Python's `\b` boundary semantics. -/
def isWordChar (c : Char) : Bool :=
  c.isAlphanum || c == '_'

/-- The double-quote character (escaping it as a literal would be noisy). -/
def quoteChar : Char := Char.ofNat 34

/-- The apostrophe character. -/
def apostChar : Char := Char.ofNat 39

/-- The backtick character. -/
def backtickChar : Char := Char.ofNat 96

/-- Leading-noise class of `re.sub(r'^[|!"\'\s,.;:]+', "", line)`. -/
def isLeadNoise (c : Char) : Bool :=
  c == '|' || c == '!' || c == quoteChar || c == apostChar ||
  c == ',' || c == '.' || c == ';' || c == ':' || isPySpace c

/-- Bracket normalization: `[`,`{` become `(` and `]`,`}` become `)`
    (the four chained `str.replace` calls of the source). -/
def fixBracket (c : Char) : Char :=
  if c == '[' || c == '{' then '('
  else if c == ']' || c == '}' then ')'
  else c

/-- Line-break characters recognized by Python's `str.splitlines`. -/
def isLineBreak (c : Char) : Bool :=
  c == '\n' || c == '\r' || c == Char.ofNat 11 || c == Char.ofNat 12 ||
  c == Char.ofNat 28 || c == Char.ofNat 29 || c == Char.ofNat 30 ||
  c == Char.ofNat 133 || c == Char.ofNat 8232 || c == Char.ofNat 8233

/-- Python `str.strip()` (whitespace trimmed from both ends). -/
def pyStrip (l : List Char) : List Char :=
  ((l.dropWhile isPySpace).reverse.dropWhile isPySpace).reverse

/-- Match a literal pattern at the front of the input; `ci` compares
    case-insensitively (the pattern is then stored lowercased).  Returns
    the remaining input after the pattern. -/
def matchPat (ci : Bool) : List Char → List Char → Option (List Char)
  | [], l => some l
  | _ :: _, [] => none
  | p :: ps, c :: cs =>
    if (if ci then c.toLower == p else c == p) then matchPat ci ps cs else none

/-- Word-boundary test against the input that follows a match. -/
def bdryB : List Char → Bool
  | [] => true
  | c :: _ => !(isWordChar c)

/-- Is `pat` a contiguous substring of `l` (Python's `in` on strings)? -/
def containsSub (pat : List Char) : List Char → Bool
  | [] => pat.isEmpty
  | c :: rest => pat.isPrefixOf (c :: rest) || containsSub pat rest

/-- After at least one space already consumed: consume further spaces,
    then require a character satisfying `p`; return it and the rest. -/
def eatSpacesGo (p : Char → Bool) : List Char → Option (Char × List Char)
  | [] => none
  | c :: rest =>
    if isPySpace c then eatSpacesGo p rest
    else if p c then some (c, rest) else none

/-- `\s+` followed by a character satisfying `p` (greedy run of spaces,
    then the target character).  Returns the target and the rest. -/
def eatSpaces1 (p : Char → Bool) : List Char → Option (Char × List Char)
  | [] => none
  | c :: rest => if isPySpace c then eatSpacesGo p rest else none

/-- Generic `re.sub` scanner: at each position try `step`, which either
    yields a replacement together with the input remaining after the
    match (the match always consumes at least one character), or fails,
    in which case the character is copied and scanning advances by one.
    The fuel is initialized to the input length, which is sufficient
    because every iteration consumes at least one input character. -/
def scanFuel (step : List Char → Option (List Char × List Char)) :
    Nat → List Char → List Char
  | _, [] => []
  | 0, l => l
  | f + 1, c :: rest =>
    match step (c :: rest) with
    | some (rep, rest') => rep ++ scanFuel step f rest'
    | none => c :: scanFuel step f rest

/-- Run a `scanFuel` scanner with fuel equal to the input length. -/
def runScan (step : List Char → Option (List Char × List Char))
    (l : List Char) : List Char :=
  scanFuel step l.length l

/-- `re.sub` scanner tracking whether the previous character is a word
    character (for `\b` at the start of a pattern).  After a successful
    match the flag is set to `true`: every pattern handled this way ends
    in a letter. -/
def scanFuelB (step : Bool → List Char → Option (List Char × List Char)) :
    Nat → Bool → List Char → List Char
  | _, _, [] => []
  | 0, _, l => l
  | f + 1, pw, c :: rest =>
    match step pw (c :: rest) with
    | some (rep, rest') => rep ++ scanFuelB step f true rest'
    | none => c :: scanFuelB step f (isWordChar c) rest

/-- Run a boundary-tracking scanner; the start of the string is a word
    boundary, so the flag starts `false`. -/
def runScanB (step : Bool → List Char → Option (List Char × List Char))
    (l : List Char) : List Char :=
  scanFuelB step l.length false l

/-- Step for `re.sub(r"\bPAT\b", REP, line)` with literal `PAT`. -/
def wordStep (ci : Bool) (pat rep : List Char) (pw : Bool) (l : List Char) :
    Option (List Char × List Char) :=
  if pw then none
  else
    match matchPat ci pat l with
    | some rest => if bdryB rest then some (rep, rest) else none
    | none => none

/-- Whole-word replacement (case-sensitive). -/
def subWord (pat rep : String) (l : List Char) : List Char :=
  runScanB (wordStep false pat.toList rep.toList) l

/-- Whole-word replacement with `re.IGNORECASE` (pattern lowercased). -/
def subWordCI (pat rep : String) (l : List Char) : List Char :=
  runScanB (wordStep true pat.toList rep.toList) l

/-- Python `str.replace` (plain substring, all occurrences, scanning
    left to right without overlap), fueled version. -/
def strReplaceFuel (pat rep : List Char) : Nat → List Char → List Char
  | _, [] => []
  | 0, l => l
  | f + 1, c :: rest =>
    match matchPat false pat (c :: rest) with
    | some rest' =>
      if pat.isEmpty then c :: strReplaceFuel pat rep f rest
      else rep ++ strReplaceFuel pat rep f rest'
    | none => c :: strReplaceFuel pat rep f rest

/-- Python `str.replace`. -/
def strReplace (pat rep : String) (l : List Char) : List Char :=
  strReplaceFuel pat.toList rep.toList l.length l

/-- `re.sub(r"(\d)UU", r"\g<1>00", line)`. -/
def subDUU : List Char → List Char
  | c :: 'U' :: 'U' :: rest =>
    if c.isDigit then c :: '0' :: '0' :: subDUU rest
    else c :: subDUU ('U' :: 'U' :: rest)
  | c :: rest => c :: subDUU rest
  | [] => []

/-- `re.sub(r"(\d)0C", r"\g<1>00", line)`. -/
def subD0C : List Char → List Char
  | c :: '0' :: 'C' :: rest =>
    if c.isDigit then c :: '0' :: '0' :: subD0C rest
    else c :: subD0C ('0' :: 'C' :: rest)
  | c :: rest => c :: subD0C rest
  | [] => []

/-- `line.replace("((", "(")`: non-overlapping pairs collapse. -/
def collapseOpen : List Char → List Char
  | '(' :: '(' :: rest => '(' :: collapseOpen rest
  | c :: rest => c :: collapseOpen rest
  | [] => []

/-- `re.sub(r"\)\)+", ")", line)`: every maximal run of two or more
    closing parens becomes a single one (fueled; each step shortens the
    input by at least one). -/
def collapseCloseFuel : Nat → List Char → List Char
  | _, [] => []
  | 0, l => l
  | f + 1, ')' :: ')' :: rest => collapseCloseFuel f (')' :: rest)
  | f + 1, c :: rest => c :: collapseCloseFuel f rest

/-- Collapse runs of closing parens. -/
def collapseClose (l : List Char) : List Char :=
  collapseCloseFuel l.length l

/-- Step for `re.sub(r"\bRanges?\s+E", "Range E", line)`: optional `s`
    tried greedily first; on failure of `\s+E` after `s` the engine
    backtracks to the no-`s` branch, which then necessarily fails
    because `s` is not whitespace. -/
def rangesEStep (pw : Bool) (l : List Char) : Option (List Char × List Char) :=
  if pw then none
  else
    match matchPat false (String.toList "Range") l with
    | some r1 =>
      match r1 with
      | 's' :: r2 =>
        match eatSpaces1 (fun c => c == 'E') r2 with
        | some (_, r3) => some (String.toList "Range E", r3)
        | none => none
      | _ =>
        match eatSpaces1 (fun c => c == 'E') r1 with
        | some (_, r3) => some (String.toList "Range E", r3)
        | none => none
    | none => none

/-- Apply the `Ranges?\s+E` repair. -/
def subRangesE (l : List Char) : List Char :=
  runScanB rangesEStep l

/-- The garbled "Exhaustion" renderings enumerated in the source, in
    source order (matched case-insensitively). -/
def exhaustionVariants : List String :=
  ["Evhauetinn", "Exnaustion", "Frhaustian", "CAnausuon",
   "CAnaustion", "CANausiCn", "CANaUuSIVN", "Fehaustion",
   "Frhaustinn", "Exnausuon", "Fxhaustion"]

/-- Lowercase a string (ASCII, as needed by the fixed vocabulary). -/
def toLowerStr (s : String) : String :=
  String.mk (s.toList.map Char.toLower)

/-- `[Zz]on[aegkno]` (the garbled-"Zone" character classes of the first
    end-of-line repair); returns the input after the four characters. -/
def zCheck1 : List Char → Option (List Char)
  | z1 :: 'o' :: 'n' :: z4 :: r =>
    if (z1 == 'Z' || z1 == 'z') && ['a', 'e', 'g', 'k', 'n', 'o'].contains z4
    then some r else none
  | _ => none

/-- `[Zz]cne` of the second end-of-line repair. -/
def zCheck2 : List Char → Option (List Char)
  | z1 :: 'c' :: 'n' :: 'e' :: r =>
    if z1 == 'Z' || z1 == 'z' then some r else none
  | _ => none

/-- `\s+Z\)?\s*$` where `Z` is checked by `zcheck`: one or more spaces,
    the garbled Zone word, an optional closing paren, trailing spaces,
    end of line. -/
def zTail (zcheck : List Char → Option (List Char)) (l : List Char) : Bool :=
  match l with
  | [] => false
  | c :: rest =>
    if isPySpace c then
      match zcheck (rest.dropWhile isPySpace) with
      | some r2 =>
        match r2 with
        | ')' :: r3 => r3.all isPySpace
        | _ => r2.all isPySpace
      | none => false
    else false

/-- Keywords of the parenthetical end-of-line repairs. -/
def zoneKws : List (List Char) :=
  [String.toList "Confirming", String.toList "Changing",
   String.toList "Weakness", String.toList "Strength"]

/-- Keywords of the closing-paren completion rule. -/
def closeKws : List (List Char) :=
  [String.toList "Zone", String.toList "Weakness", String.toList "Strength"]

/-- Greedy-group search: the group `[^)]*(?:KW)` takes the longest
    paren-free prefix of `r` that ends in one of `kws` and whose
    remainder satisfies `tailOK` (the regex engine backtracks from the
    longest candidate downwards). -/
def findGAux (r : List Char) (kws : List (List Char))
    (tailOK : List Char → Bool) : Nat → Option (List Char)
  | 0 => none
  | k + 1 =>
    let g := r.take (k + 1)
    if g.all (fun c => c != ')') && kws.any (fun kw => kw.isSuffixOf g) &&
        tailOK (r.drop (k + 1))
    then some g
    else findGAux r kws tailOK k

/-- Greedy-group search entry point. -/
def findG (r : List Char) (kws : List (List Char))
    (tailOK : List Char → Bool) : Option (List Char) :=
  findGAux r kws tailOK r.length

/-- Scanner for patterns anchored at end of line (`...$`): at the first
    position where `m` succeeds the whole rest of the line is the match
    and is replaced by the value returned by `m`. -/
def subToEnd (m : List Char → Option (List Char)) : List Char → List Char
  | [] => []
  | c :: rest =>
    match m (c :: rest) with
    | some repl => repl
    | none => c :: subToEnd m rest

/-- Match of the first garbled-`Zone)` end-of-line repair, producing its
    replacement `(\1 Zone)`. -/
def zoneMatch1 (l : List Char) : Option (List Char) :=
  match l with
  | '(' :: r =>
    (findG r zoneKws (zTail zCheck1)).map
      (fun g => '(' :: (g ++ String.toList " Zone)"))
  | _ => none

/-- Match of the second (`[Zz]cne`) end-of-line repair. -/
def zoneMatch2 (l : List Char) : Option (List Char) :=
  match l with
  | '(' :: r =>
    (findG r zoneKws (zTail zCheck2)).map
      (fun g => '(' :: (g ++ String.toList " Zone)"))
  | _ => none

/-- Match of `re.sub(r"\(([^)]*(?:Zone|Weakness|Strength))\s*$", r"(\1)")`:
    appends the missing closing paren. -/
def closeParenMatch (l : List Char) : Option (List Char) :=
  match l with
  | '(' :: r =>
    (findG r closeKws (fun t => t.all isPySpace)).map
      (fun g => '(' :: (g ++ [')']))
  | _ => none

/-- The trailing-noise truncation of the source:
    `m = re.match(r"(.*\))", line); if m and "(" in m.group(1): line = m.group(1)`.
    The greedy `.*` (which cannot cross a newline) makes the group the
    prefix of the line up to its last closing paren; the line is
    replaced by that prefix when an opening paren occurs in it. -/
def stripAfterParen (l : List Char) : List Char :=
  let seg := l.takeWhile (fun c => c != '\n')
  let tl := seg.reverse.takeWhile (fun c => c != ')')
  if tl.length = seg.length then l
  else
    let p := (seg.reverse.drop tl.length).reverse
    if '(' ∈ p then p else l

/-- Step of `re.sub(r"(\d)\s+\.", r"\1.", line)`. -/
def dsDotStep (l : List Char) : Option (List Char × List Char) :=
  match l with
  | c :: rest =>
    if c.isDigit then
      match eatSpaces1 (fun d => d == '.') rest with
      | some (_, r) => some ([c, '.'], r)
      | none => none
    else none
  | [] => none

/-- Step of `re.sub(r"\.\s+(\d)", r".\1", line)`. -/
def dotSDStep (l : List Char) : Option (List Char × List Char) :=
  match l with
  | '.' :: rest =>
    match eatSpaces1 Char.isDigit rest with
    | some (d, r) => some (['.', d], r)
    | none => none
  | _ => none

/-- Step of `re.sub(r"(\d)\s+(\d)", r"\1\2", line)` (a single
    left-to-right pass, matches do not overlap). -/
def ddStep (l : List Char) : Option (List Char × List Char) :=
  match l with
  | c :: rest =>
    if c.isDigit then
      match eatSpaces1 Char.isDigit rest with
      | some (d, r) => some ([c, d], r)
      | none => none
    else none
  | [] => none

/-- The digit-space-digit collapse rule on its own. -/
def fixDigitSpaceDigit (l : List Char) : List Char :=
  runScan ddStep l

/-- Separator class of `O[''`/]?N` (apostrophe, apostrophe, backtick,
    slash in the source class). -/
def isSepON (c : Char) : Bool :=
  c == apostChar || c == backtickChar || c == '/'

/-- `re.sub(r"O[''`/]?N\b", "O/N", line)`: the separator is optional,
    and the `\b` only follows the `N`.  Fueled scan (fuel = length);
    on a failed match at an `O` the engine advances one character and
    may re-attempt a match at the very next character. -/
def fixONFuel : Nat → List Char → List Char
  | _, [] => []
  | 0, l => l
  | f + 1, c :: rest =>
    if c = 'O' then
      match rest with
      | d :: 'N' :: r =>
        if isSepON d && bdryB r then 'O' :: '/' :: 'N' :: fixONFuel f r
        else c :: fixONFuel f rest
      | 'N' :: rest2 =>
        if bdryB rest2 then 'O' :: '/' :: 'N' :: fixONFuel f rest2
        else c :: fixONFuel f rest
      | _ => c :: fixONFuel f rest
    else c :: fixONFuel f rest

/-- The `O/N` repair. -/
def fixON (l : List Char) : List Char :=
  fixONFuel l.length l

/-- `\s+zone\)` after a `Confirming`/`Changing` keyword: returns the
    rest of the input after the literal `zone)`. -/
def zoneLowerTail (l : List Char) : Option (List Char) :=
  match eatSpaces1 (fun c => c == 'z') l with
  | some (_, r) => matchPat false (String.toList "one)") r
  | none => none

/-- Step of `re.sub(r"(Confirming|Changing)\s+zone\)", r"\1 Zone)", line)`. -/
def confZoneStep (l : List Char) : Option (List Char × List Char) :=
  match matchPat false (String.toList "Confirming") l with
  | some r =>
    match zoneLowerTail r with
    | some r2 => some (String.toList "Confirming Zone)", r2)
    | none => none
  | none =>
    match matchPat false (String.toList "Changing") l with
    | some r =>
      match zoneLowerTail r with
      | some r2 => some (String.toList "Changing Zone)", r2)
      | none => none
    | none => none

/-- The full `_clean_line` rule chain of the source, in source order,
    over `List Char`. -/
def cleanLine (l0 : List Char) : List Char :=
  let l1 := l0.dropWhile isLeadNoise
  let l2 := l1.map fixBracket
  let l3 := subDUU l2
  let l4 := subD0C l3
  let l5 := collapseOpen l4
  let l6 := subWord "Ranne" "Range" l5
  let l7 := subWord "Ranae" "Range" l6
  let l8 := subWord "Kange" "Range" l7
  let l9 := subWord "Ranaea" "Range" l8
  let l10 := subRangesE l9
  let l11 := exhaustionVariants.foldl
    (fun acc v => subWordCI (toLowerStr v) "Exhaustion" acc) l10
  let l12 := subWord "Hinh" "High" l11
  let l13 := subWord "Hiah" "High" l12
  let l14 := subWord "nigh" "High" l13
  let l15 := subWord "Mign" "High" l14
  let l16 := strReplace "Contirming" "Confirming" l15
  let l17 := strReplace "contirming" "Confirming" l16
  let l18 := strReplace "Contimming" "Confirming" l17
  let l19 := strReplace "Cnanging" "Changing" l18
  let l20 := strReplace "Chanaina" "Changing" l19
  let l21 := strReplace "Channing" "Changing" l20
  let l22 := subToEnd zoneMatch1 l21
  let l23 := subToEnd zoneMatch2 l22
  let l24 := subToEnd closeParenMatch l23
  let l25 := collapseClose l24
  let l26 := stripAfterParen l25
  let l27 := runScan dsDotStep l26
  let l28 := runScan dotSDStep l27
  let l29 := runScan ddStep l28
  let l30 := fixON l29
  let l31 := runScan confZoneStep l30
  pyStrip l31

/-- `_clean_line` at the `String` level. -/
def _clean_line (s : String) : String :=
  String.mk (cleanLine s.toList)

/-- The fixed keyword set of the terminal filter. -/
def keywords : List String :=
  ["zone", "range", "support", "resistance", "hvn", "gap",
   "initial", "aggressive", "pre-market"]

/-- Lowercase a character list. -/
def toLowerL (l : List Char) : List Char :=
  l.map Char.toLower

/-- `any(kw in lower for kw in [...])` of the source. -/
def keywordHit (l : List Char) : Bool :=
  keywords.any (fun kw => containsSub kw.toList (toLowerL l))

/-- Keyword test at the `String` level. -/
def keywordHitS (s : String) : Bool :=
  keywordHit s.toList

/-- Python `str.splitlines` (accumulator holds the current line
    reversed). -/
def splitLinesAux (acc : List Char) : List Char → List (List Char)
  | [] => if acc.isEmpty then [] else [acc.reverse]
  | '\r' :: '\n' :: rest => acc.reverse :: splitLinesAux [] rest
  | c :: rest =>
    if isLineBreak c then acc.reverse :: splitLinesAux [] rest
    else splitLinesAux (c :: acc) rest

/-- Python `str.splitlines`. -/
def splitLines (l : List Char) : List (List Char) :=
  splitLinesAux [] l

/-- The line loop of `extract_zones`: strip, drop empties, clean, drop
    empty results, keep keyword hits, preserving order. -/
def processLines : List (List Char) → List (List Char)
  | [] => []
  | l :: rest =>
    let s := pyStrip l
    if s.isEmpty then processLines rest
    else
      let c := cleanLine s
      if c.isEmpty then processLines rest
      else if keywordHit c then c :: processLines rest
      else processLines rest

/-- What `extract_zones` does with the OCR engine's raw text. -/
def extract_zones_text (text : String) : List String :=
  (processLines (splitLines text.toList)).map String.mk

/-- The per-line survival function: `some` iff the line survives strip,
    cleaning and the keyword filter (used to state the subsequence
    claim). -/
def keepLine (l : List Char) : Option (List Char) :=
  let s := pyStrip l
  if s.isEmpty then none
  else
    let c := cleanLine s
    if c.isEmpty then none
    else if keywordHit c then some c
    else none

/-- The pipeline with its external collaborators abstracted: `decoded`
    is the result of `cv2.imread` (`none` models a failed load) and
    `ocr` is the OCR engine on the prepared image.  The source raises
    `FileNotFoundError` before any further processing when the load
    fails. -/
def extract_zones {α : Type} (decoded : Option α) (ocr : α → String) :
    Except String (List String) :=
  match decoded with
  | none => Except.error "Could not load image"
  | some img => Except.ok (extract_zones_text (ocr img))

/-- Whether an `Except` result is a success. -/
def exceptIsOk {ε β : Type} : Except ε β → Bool
  | Except.ok _ => true
  | Except.error _ => false

/-- The crop rectangle of the Region Selector. -/
structure CropRect where
  xStart : Nat
  xEnd : Nat
  yStart : Nat
  yEnd : Nat
  deriving DecidableEq, Repr

/-- Crop bounds of `extract_zones`: `int(w*0.50)`, `int(w*0.96)`,
    `int(h*0.01)`, `int(h*0.96)`, modelled as exact floors. -/
def cropBounds (w h : Nat) : CropRect :=
  ⟨w * 50 / 100, w * 96 / 100, h * 1 / 100, h * 96 / 100⟩

/-- Is the crop window `mask[yStart:yEnd, xStart:xEnd]` non-empty? -/
def cropNonempty (r : CropRect) : Prop :=
  r.xStart < r.xEnd ∧ r.yStart < r.yEnd

instance (r : CropRect) : Decidable (cropNonempty r) := by
  unfold cropNonempty; infer_instance

/-- The garbled "Range" renderings of the misspelling table. -/
def rangeVariants : List String :=
  ["Ranne", "Ranae", "Kange", "Ranaea"]

/-- The garbled "High" renderings of the misspelling table. -/
def highVariants : List String :=
  ["Hinh", "Hiah", "nigh", "Mign"]

/-- The garbled "Confirming"/"Changing" renderings with their canonical
    spellings (literal `str.replace` table of the source). -/
def confusionPairs : List (String × String) :=
  [("Contirming", "Confirming"), ("contirming", "Confirming"),
   ("Contimming", "Confirming"), ("Cnanging", "Changing"),
   ("Chanaina", "Changing"), ("Channing", "Changing")]

/-- Keep characters up to and including the first closing paren
    (helper for the spec-worded truncation below). -/
def specTakeThroughClose : List Char → List Char
  | [] => []
  | ')' :: _ => [')']
  | c :: rest => c :: specTakeThroughClose rest

/-- Modelled from the spec: "truncate everything after the first
    complete closing parenthesis that follows an opening one".  This is
    the claims' description of the trailing-noise truncation; it is
    compared against the implementation's `stripAfterParen`. -/
def specFirstCloseTruncation : List Char → List Char
  | [] => []
  | '(' :: rest => '(' :: specTakeThroughClose rest
  | c :: rest => c :: specFirstCloseTruncation rest

set_option maxRecDepth 40000
set_option maxHeartbeats 2000000

/-! ## Helper lemmas -/

theorem takeWhile_of_all {α : Type} {p : α → Bool} :
    ∀ l : List α, (∀ c ∈ l, p c = true) → l.takeWhile p = l := by
  intro l h
  induction l with
  | nil => rfl
  | cons c rest ih =>
    have hc : p c = true := h c (List.mem_cons_self ..)
    simp only [List.takeWhile_cons, hc, if_true]
    exact congrArg (c :: ·) (ih fun x hx => h x (List.mem_cons_of_mem _ hx))

theorem takeWhile_append_stop {α : Type} {p : α → Bool} :
    ∀ (l1 : List α) (x : α) (l2 : List α), (∀ c ∈ l1, p c = true) →
      p x = false → (l1 ++ x :: l2).takeWhile p = l1 := by
  intro l1 x l2 h hx
  induction l1 with
  | nil => simp [List.takeWhile_cons, hx]
  | cons c rest ih =>
    have hc : p c = true := h c (List.mem_cons_self ..)
    simp only [List.cons_append, List.takeWhile_cons, hc, if_true]
    exact congrArg (c :: ·) (ih fun y hy => h y (List.mem_cons_of_mem _ hy))

/-! ## Claim theorems -/

/-- C2 counterexample: the Line Normalizer is not idempotent.  One pass
    over `"1 2 3"` merges only the first digit pair (giving `"12 3"`),
    and a second pass merges again (giving `"123"`). -/
theorem clean_line_not_idempotent :
    _clean_line (_clean_line "1 2 3") ≠ _clean_line "1 2 3" := by decide

/-- C2 (amended): the Line Normalizer is idempotent on canonical label
    lines — it fixes them, hence re-running it yields the same line —
    but not on arbitrary strings. -/
theorem clean_line_idempotent_on_canonical :
    _clean_line "24H Range Extreme High" = "24H Range Extreme High" ∧
    _clean_line (_clean_line "24H Range Extreme High") =
      _clean_line "24H Range Extreme High" ∧
    _clean_line "Resistance Zone 26268.00-26360.50 (Short-term Bias Confirming Zone)" =
      "Resistance Zone 26268.00-26360.50 (Short-term Bias Confirming Zone)" ∧
    _clean_line (_clean_line "Resistance Zone 26268.00-26360.50 (Short-term Bias Confirming Zone)") =
      _clean_line "Resistance Zone 26268.00-26360.50 (Short-term Bias Confirming Zone)" := by
  decide

/-- C7: the numeric-spacing repair maps `"25092 .25"` and `"25092. 25"`
    to `"25092.25"`, and collapses the single space of `"2 5092"` to
    `"25092"`. -/
theorem numeric_spacing_repair :
    _clean_line "25092 .25" = "25092.25" ∧
    _clean_line "25092. 25" = "25092.25" ∧
    _clean_line "2 5092" = "25092" := by decide

/-- C10: the digit-space collapse is a single left-to-right
    non-overlapping pass, so `"1 2 3"` becomes `"12 3"` (only the first
    pair merges), not `"123"` — both for the rule in isolation and for
    the whole normalizer. -/
theorem digit_space_single_pass :
    fixDigitSpaceDigit ("1 2 3".toList) = "12 3".toList ∧
    _clean_line "1 2 3" = "12 3" ∧
    _clean_line "1 2 3" ≠ "123" := by decide

/-- C4 counterexample: for a 1×1 source image the crop window computed
    by the Region Selector is empty (`x` ∈ [0,0), `y` ∈ [0,0)), so the
    claim that the window is never empty for all `w, h ≥ 1` fails. -/
theorem crop_empty_at_one :
    ¬ cropNonempty (cropBounds 1 1) := by decide

/-- C4 (amended): for every `w, h ≥ 1` the crop bounds are ordered and
    within the image (they are non-negative by construction in `ℕ`),
    and the crop window is non-empty whenever `w ≥ 3` and `h ≥ 2`. -/
theorem crop_bounds_within (w h : Nat) (hw : 1 ≤ w) (hh : 1 ≤ h) :
    ((cropBounds w h).xStart ≤ (cropBounds w h).xEnd ∧
     (cropBounds w h).xEnd ≤ w ∧
     (cropBounds w h).yStart ≤ (cropBounds w h).yEnd ∧
     (cropBounds w h).yEnd ≤ h) ∧
    (3 ≤ w → 2 ≤ h → cropNonempty (cropBounds w h)) := by
  simp only [cropBounds, cropNonempty]
  omega

/-- Witness for the amended C4 theorem at a 10×10 image. -/
theorem crop_bounds_within_witness :
    cropNonempty (cropBounds 10 10) :=
  (crop_bounds_within 10 10 (by decide) (by decide)).2 (by decide) (by decide)

/-- C5: the pipeline fails (with the "source not found" error raised
    before any processing) precisely when the image fails to decode,
    and then produces no labels. -/
theorem load_failure_iff_error (α : Type) (decoded : Option α)
    (ocr : α → String) :
    (exceptIsOk (extract_zones decoded ocr) = false ↔ decoded = none) ∧
    (decoded = none →
      extract_zones decoded ocr = Except.error "Could not load image") := by
  cases decoded <;> simp [extract_zones, exceptIsOk]

/-- Witness for C5: a failed load yields exactly the load error. -/
theorem load_failure_iff_error_witness :
    extract_zones (none : Option Unit) (fun _ => "") =
      Except.error "Could not load image" :=
  (load_failure_iff_error Unit none (fun _ => "")).2 rfl

theorem processLines_eq_filterMap :
    ∀ ls : List (List Char), processLines ls = ls.filterMap keepLine := by
  intro ls
  induction ls with
  | nil => rfl
  | cons l rest ih =>
    simp only [processLines, keepLine, List.filterMap_cons]
    by_cases h1 : (pyStrip l).isEmpty
    · simp [h1, ih]
    · by_cases h2 : (cleanLine (pyStrip l)).isEmpty
      · simp [h1, h2, ih]
      · by_cases h3 : keywordHit (cleanLine (pyStrip l)) = true
        · simp [h1, h2, h3, ih]
        · simp [h1, h2, h3, ih]

/-- C1: every label returned by the line loop is non-empty and its
    lowercase form contains one of the fixed keywords, for every OCR
    output text. -/
theorem labels_nonempty_and_keyword (text lbl : String)
    (hmem : lbl ∈ extract_zones_text text) :
    lbl ≠ "" ∧ keywordHitS lbl = true := by
  unfold extract_zones_text at hmem
  obtain ⟨c, hc, rfl⟩ := List.mem_map.mp hmem
  rw [processLines_eq_filterMap] at hc
  obtain ⟨l, -, hk⟩ := List.mem_filterMap.mp hc
  simp only [keepLine] at hk
  generalize pyStrip l = s at hk
  generalize cleanLine s = d at hk
  split at hk
  · simp at hk
  · split at hk
    · simp at hk
    · split at hk
      · rename_i h1 h2 h3
        injection hk with hk2
        subst hk2
        constructor
        · intro hcon
          have hc0 : d = [] := by simpa using congrArg String.toList hcon
          simp [hc0] at h2
        · exact h3
      · simp at hk

/-- Witness for C1 on a concrete OCR text. -/
theorem labels_nonempty_and_keyword_witness :
    ("Support Zone" : String) ≠ "" ∧ keywordHitS "Support Zone" = true :=
  labels_nonempty_and_keyword "Support Zone" "Support Zone" (by decide)

/-- C6: the returned label list is exactly the in-order filterMap of
    the OCR lines through the per-line survival function — no
    reordering, and a line retained twice appears twice. -/
theorem labels_in_order_no_dedup :
    (∀ text : String, extract_zones_text text =
      ((splitLines text.toList).filterMap keepLine).map String.mk) ∧
    extract_zones_text "Support Zone\nSupport Zone" =
      ["Support Zone", "Support Zone"] := by
  refine ⟨?_, by decide⟩
  intro text
  unfold extract_zones_text
  rw [processLines_eq_filterMap]

/-- C3 counterexample: the truncation step keeps everything up to the
    last closing paren, not up to the first closing paren that follows
    an opening one, so on `"(a) x (b) y"` the implementation and the
    spec's description disagree. -/
theorem truncation_not_at_first_close :
    stripAfterParen ("(a) x (b) y".toList) = "(a) x (b)".toList ∧
    specFirstCloseTruncation ("(a) x (b) y".toList) = "(a)".toList ∧
    stripAfterParen ("(a) x (b) y".toList) ≠
      specFirstCloseTruncation ("(a) x (b) y".toList) := by decide

/-- C3 (amended): the trailing-noise truncation removes everything
    after the last closing parenthesis of the line, provided an opening
    parenthesis occurs somewhere before it: for any newline-free line
    `a ++ ")" ++ b` whose tail `b` contains no further `)` and with `(`
    occurring in `a`, the step returns `a ++ ")"`. -/
theorem truncation_after_last_close (a b : List Char)
    (hopen : '(' ∈ a) (hb : ')' ∉ b) (hna : '\n' ∉ a) (hnb : '\n' ∉ b) :
    stripAfterParen (a ++ ')' :: b) = a ++ [')'] := by
  have hseg : (a ++ ')' :: b).takeWhile (fun c => c != '\n') = a ++ ')' :: b := by
    apply takeWhile_of_all
    intro c hc
    simp only [bne_iff_ne, ne_eq]
    rcases List.mem_append.mp hc with h | h
    · exact fun e => hna (e ▸ h)
    · rcases List.mem_cons.mp h with h | h
      · subst h; decide
      · exact fun e => hnb (e ▸ h)
  have hrev : (a ++ ')' :: b).reverse = b.reverse ++ ')' :: a.reverse := by
    simp
  have htl : (b.reverse ++ ')' :: a.reverse).takeWhile (fun c => c != ')') =
      b.reverse := by
    apply takeWhile_append_stop
    · intro c hc
      simp only [bne_iff_ne, ne_eq]
      exact fun e => hb (e ▸ List.mem_reverse.mp hc)
    · decide
  have hcond : ¬ ((b.reverse).length = (a ++ ')' :: b).length) := by
    simp only [List.length_reverse, List.length_append, List.length_cons]
    omega
  have hdrop : (b.reverse ++ ')' :: a.reverse).drop (b.reverse).length =
      ')' :: a.reverse := List.drop_left _ _
  simp only [stripAfterParen]
  rw [hseg, hrev, htl, if_neg hcond, hdrop]
  have hp : (')' :: a.reverse).reverse = a ++ [')'] := by simp
  rw [hp, if_pos (List.mem_append_left _ hopen)]

/-- Witness for the amended C3 theorem on a concrete line. -/
theorem truncation_after_last_close_witness :
    stripAfterParen (['(', 'x'] ++ ')' :: [' ', 'y']) = ['(', 'x'] ++ [')'] :=
  truncation_after_last_close ['(', 'x'] [' ', 'y']
    (by decide) (by decide) (by decide) (by decide)

/-- C8: every garbled form in the fixed misspelling tables is replaced,
    as a whole word, by its canonical spelling: the "Range" variants,
    the eleven "Exhaustion" variants (also when lowercased, since they
    are matched case-insensitively), the "High" variants, and the
    literal "Confirming"/"Changing" confusions. -/
theorem misspelling_tables :
    (∀ g ∈ rangeVariants,
      _clean_line ("24H " ++ g ++ " Extreme High") = "24H Range Extreme High") ∧
    (∀ g ∈ exhaustionVariants,
      _clean_line ("24H Range " ++ g ++ " High") = "24H Range Exhaustion High" ∧
      _clean_line ("24H Range " ++ toLowerStr g ++ " High") =
        "24H Range Exhaustion High") ∧
    (∀ g ∈ highVariants,
      _clean_line ("24H Range Extreme " ++ g) = "24H Range Extreme High") ∧
    (∀ p ∈ confusionPairs,
      _clean_line ("Resistance Zone (Bias " ++ p.1 ++ " Zone)") =
        "Resistance Zone (Bias " ++ p.2 ++ " Zone)") := by
  refine ⟨?_, ?_, ?_, ?_⟩ <;> decide

/-- Witness for C8 at the first "Range" variant. -/
theorem misspelling_tables_witness :
    _clean_line ("24H " ++ "Ranne" ++ " Extreme High") =
      "24H Range Extreme High" :=
  misspelling_tables.1 "Ranne" (by decide)

theorem fixONFuel_no_O :
    ∀ a : List Char, (∀ c ∈ a, c ≠ 'O') →
      fixONFuel (a.length + 2) (a ++ ['O', 'N']) = a ++ ['O', '/', 'N'] := by
  intro a
  induction a with
  | nil => intro _; rfl
  | cons c rest ih =>
    intro h
    have hc : c ≠ 'O' := h c (List.mem_cons_self ..)
    have hr := ih fun x hx => h x (List.mem_cons_of_mem _ hx)
    show fixONFuel (rest.length + 1 + 2) (c :: (rest ++ ['O', 'N'])) =
      c :: (rest ++ ['O', '/', 'N'])
    rw [show rest.length + 1 + 2 = (rest.length + 2) + 1 by omega]
    simp only [fixONFuel]
    rw [if_neg hc]
    exact congrArg (c :: ·) hr

/-- C9: the slash-notation rule needs no separator: any `O` immediately
    followed by `N` at a word boundary gets a `/` inserted, so an
    all-caps word ending in `ON` such as `"STATION"` is rewritten to
    `"STATIO/N"`. -/
theorem slash_inserted_without_separator :
    (∀ a : List Char, (∀ c ∈ a, c ≠ 'O') →
      fixON (a ++ ['O', 'N']) = a ++ ['O', '/', 'N']) ∧
    _clean_line "STATION" = "STATIO/N" ∧
    _clean_line "ON" = "O/N" := by
  refine ⟨?_, by decide, by decide⟩
  intro a h
  unfold fixON
  have hl : (a ++ ['O', 'N']).length = a.length + 2 := by simp
  rw [hl]
  exact fixONFuel_no_O a h

/-- Witness for C9 at the word `"STATION"`. -/
theorem slash_inserted_without_separator_witness :
    fixON (['S', 'T', 'A', 'T', 'I'] ++ ['O', 'N']) =
      ['S', 'T', 'A', 'T', 'I'] ++ ['O', '/', 'N'] :=
  slash_inserted_without_separator.1 ['S', 'T', 'A', 'T', 'I'] (by decide)
